import Mathlib

/-!
Shallow embedding of `peek`, a terminal file browser (`src/main.rs`), together
with theorems about its claims: directory-listing sort order, selection
invariants, the command sub-language (`:cat`, `:ob`, `:q`), the HTML
tag-highlighting scanner, preview scrolling, clipboard copying, and the
fatal/recoverable error split of the event loop.

Modelling conventions:
- Rust `String`/`&str` values are `List Char` (`Str`); `chars().count()` is
  `List.length`, matching Unicode-scalar-value counting.
- The filesystem, the path helpers from `std::path`, the `opener` crate, the
  `pulldown_cmark` converter and the `arboard` clipboard are external
  collaborators; they are abstracted as an `Env` record of functions, with
  fallible operations returning `Except Str`.
- The ratatui `Text`/`Line`/`Span` containers are modelled structurally:
  a `Span` is a styled character run, a `Line` a list of spans, a `TextW`
  a list of lines; `Text::styled` splits its input with `str::lines`
  (dropping the final empty segment of a trailing newline and stripping a
  `'\r'` before a line break), one span per line, and `Text::height` is
  the number of lines.
- `u16` values (the scroll offset) are `Nat`s kept below 2^16, with the
  `usize as u16` cast written as `% 65536` and saturating arithmetic explicit.
-/

namespace Peek

/-- Rust strings as lists of Unicode scalar values. -/
abbrev Str := List Char

/-- Convert a Lean string literal to the `Str` model. -/
def str (s : String) : Str := s.data

/-! ## Color theme (`ColorScheme`, `GITHUB_DARK_THEME`) -/

/-- `ratatui::style::Color::Rgb`. -/
structure ColorV where
  r : Nat
  g : Nat
  b : Nat
deriving DecidableEq, Repr

/-- The theme record from the source. -/
structure ColorScheme where
  bg : ColorV
  fg : ColorV
  selection_bg : ColorV
  selection_fg : ColorV
  comment : ColorV
  link : ColorV
deriving DecidableEq, Repr

/-- The one theme constant of the program. -/
def GITHUB_DARK_THEME : ColorScheme :=
  { bg := ⟨13, 17, 23⟩
    fg := ⟨201, 209, 217⟩
    selection_bg := ⟨3, 34, 82⟩
    selection_fg := ⟨201, 209, 217⟩
    comment := ⟨139, 148, 158⟩
    link := ⟨88, 166, 255⟩ }

/-! ## ratatui text model -/

/-- A styled run of characters (`ratatui::text::Span`). -/
structure Span where
  text : Str
  color : ColorV
deriving DecidableEq, Repr

/-- One displayed line (`ratatui::text::Line`): a list of spans. -/
abbrev Line := List Span

/-- Displayable text (`ratatui::text::Text`): a list of lines. -/
abbrev TextW := List Line

/-- The character content of a line, styles erased. -/
def lineText (l : Line) : Str := (l.map Span.text).flatten

/-- Split a string at every newline character, keeping empty segments
(`"a\nb"` gives two segments, `"a\n"` gives `["a", ""]`). -/
def splitNl : Str → List Str
  | [] => [[]]
  | c :: rest =>
    match splitNl rest with
    | [] => [[]]
    | l :: ls => if c = '\n' then [] :: l :: ls else (c :: l) :: ls

/-- Rejoin segments with newlines; left inverse of `splitNl`. -/
def joinNl : List Str → Str
  | [] => []
  | [l] => l
  | l :: ls => l ++ '\n' :: joinNl ls

/-- Remove one trailing carriage return, as `str::lines` does. -/
def stripTrailingCr (l : Str) : Str :=
  if l.getLast? = some '\r' then l.dropLast else l

/-- `str::lines`: split on `'\n'`, drop a final empty segment produced by a
trailing newline, strip a trailing `'\r'` from each line. -/
def rustLines (s : Str) : List Str :=
  let parts := splitNl s
  (if parts.getLast? = some ([] : Str) then parts.dropLast else parts).map
    stripTrailingCr

/-- `Text::styled`: the whole string in one uniform style, one span per
displayed line. The widget splits its content with `str::lines`, so a
trailing newline's final empty segment is dropped and a `'\r'` before a
line break is stripped. -/
def Text.styled (content : Str) (c : ColorV) : TextW :=
  (rustLines content).map (fun l => [⟨l, c⟩])

/-- The character content of a `Text`, lines rejoined with newlines. -/
def displayText (t : TextW) : Str := joinNl (t.map lineText)

/-! ## Directory-listing sort (`ExplorerState::load_entries`) -/

/-- `bool::cmp`: `false < true`. -/
def boolCmp : Bool → Bool → Ordering
  | false, false => .eq
  | false, true => .lt
  | true, false => .gt
  | true, true => .eq

/-- Lexicographic comparison of paths by scalar value (`PathBuf::cmp`
restricted to sibling paths). -/
def lexCmp : Str → Str → Ordering
  | [], [] => .eq
  | [], _ :: _ => .lt
  | _ :: _, [] => .gt
  | a :: as_, b :: bs =>
    if a < b then .lt else if b < a then .gt else lexCmp as_ bs

/-- The comparator of `load_entries`:
`a.is_dir().cmp(&b.is_dir()).reverse().then_with(|| a.cmp(b))`. -/
def entryOrd (isDir : Str → Bool) (a b : Str) : Ordering :=
  ((boolCmp (isDir a) (isDir b)).swap).then (lexCmp a b)

/-- `le` form of the comparator, as used by a comparison sort. -/
def entryLe (isDir : Str → Bool) (a b : Str) : Bool :=
  entryOrd isDir a b != .gt

/-- `entries.sort_by(comparator)`: a stable comparison sort. Rust's
`sort_by` is a stable merge sort; any two stable sorts agree on every
input, so the model uses a structural stable insertion sort. -/
def sortEntries (isDir : Str → Bool) (paths : List Str) : List Str :=
  List.insertionSort (fun a b => entryLe isDir a b = true) paths

/-! ## Explorer state -/

/-- The abstract external world: filesystem, `std::path` helpers, the
`opener` crate, the markdown converter and the `arboard` clipboard.
All of these are external collaborators of the program. -/
structure Env where
  readDir : Str → Except Str (List Str)
  isDir : Str → Bool
  isFile : Str → Bool
  parent : Str → Option Str
  extension : Str → Option Str
  pathJoin : Str → Str → Str
  canonicalize : Str → Except Str Str
  readToString : Str → Except Str Str
  openerOpen : Str → Except Str Unit
  mdToHtml : Str → Str
  clipboardNew : Option Unit
  clipSetText : Str → Except Str Unit

/-- `ExplorerState`; `selected` is `list_state.selected()`. -/
structure ExplorerState where
  current_path : Str
  entries : List Str
  selected : Option Nat
  status_message : Option Str
  is_error : Bool
  command_input : Str
  in_command_mode : Bool
deriving DecidableEq, Repr

/-- `ExplorerState::load_entries`: list the directory, sort, reset the
cursor. The `io::Result` is an `Except`; per-entry listing errors are
dropped by the source's `filter_map(Result::ok)`, so `readDir` returns
the surviving paths. -/
def ExplorerState.load_entries (s : ExplorerState) (env : Env) :
    Except Str ExplorerState :=
  match env.readDir s.current_path with
  | .error e => .error e
  | .ok paths =>
    let entries := sortEntries env.isDir paths
    .ok { s with
          entries := entries
          selected := if entries.isEmpty then none else some 0 }

/-- `ExplorerState::new` over a starting directory. -/
def ExplorerState.new (env : Env) (cwd : Str) : Except Str ExplorerState :=
  ExplorerState.load_entries
    { current_path := cwd, entries := [], selected := none,
      status_message := none, is_error := false,
      command_input := [], in_command_mode := false } env

/-- `ExplorerState::next`: circular cursor move down. -/
def ExplorerState.next (s : ExplorerState) : ExplorerState :=
  if s.entries.isEmpty then s
  else
    let i := match s.selected with
      | none => 0
      | some i => if i ≥ s.entries.length - 1 then 0 else i + 1
    { s with selected := some i }

/-- `ExplorerState::previous`: circular cursor move up. -/
def ExplorerState.previous (s : ExplorerState) : ExplorerState :=
  if s.entries.isEmpty then s
  else
    let i := match s.selected with
      | none => 0
      | some i => if i = 0 then s.entries.length - 1 else i - 1
    { s with selected := some i }

/-- `ExplorerState::set_message`. -/
def ExplorerState.set_message (s : ExplorerState) (message : Str)
    (is_error : Bool) : ExplorerState :=
  { s with status_message := some message, is_error := is_error }

/-- `ExplorerState::clear_message`. -/
def ExplorerState.clear_message (s : ExplorerState) : ExplorerState :=
  { s with status_message := none, is_error := false }

/-- Cursor-validity invariant of the Explorer: the selection is absent
exactly on an empty listing and otherwise in range. -/
def selInv (s : ExplorerState) : Bool :=
  match s.selected with
  | none => s.entries.isEmpty
  | some i => i < s.entries.length

/-! ## HTML tag highlighting (`highlight_html`) -/

/-- The style used when flushing an accumulated run:
`if in_tag { theme.comment } else { theme.fg }`. -/
def flushColor (theme : ColorScheme) (in_tag : Bool) : ColorV :=
  if in_tag then theme.comment else theme.fg

/-- The per-line loop body of `highlight_html`: arguments are the
remaining characters, the spans pushed so far, `current_text`, `in_tag`. -/
def highlightGo (theme : ColorScheme) :
    Str → List Span → Str → Bool → Line
  | [], spans, current_text, in_tag =>
    if current_text ≠ [] then
      spans ++ [⟨current_text, flushColor theme in_tag⟩]
    else spans
  | c :: rest, spans, current_text, in_tag =>
    if c = '<' then
      let spans := if current_text ≠ [] then
          spans ++ [⟨current_text, flushColor theme in_tag⟩]
        else spans
      highlightGo theme rest spans [c] true
    else if c = '>' then
      highlightGo theme rest
        (spans ++ [⟨current_text ++ [c], theme.comment⟩]) [] false
    else
      highlightGo theme rest spans (current_text ++ [c]) in_tag

/-- `highlight_html`: scan every physical line with the two-state loop. -/
def highlight_html (html_source : Str) (theme : ColorScheme) : TextW :=
  (rustLines html_source).map (fun line => highlightGo theme line [] [] false)

/-- Modelled from the spec: the state set {Text, Tag} of the
tag-highlighting automaton described for the markdown path. -/
inductive ScanState
  | text
  | tag
deriving DecidableEq, Repr

/-- Modelled from the spec: an automaton configuration — current state,
accumulated run, output spans so far. -/
structure ScanAcc where
  state : ScanState
  buf : Str
  out : Line
deriving DecidableEq, Repr

/-- Modelled from the spec: each state's flush style (Text → foreground,
Tag → "tag" style, which the program draws in the comment color). -/
def scanStyle (theme : ColorScheme) : ScanState → ColorV
  | .text => theme.fg
  | .tag => theme.comment

/-- Modelled from the spec: flush the accumulated run, if any, in the
current state's style. -/
def scanFlush (theme : ColorScheme) (a : ScanAcc) : Line :=
  if a.buf = [] then a.out else a.out ++ [⟨a.buf, scanStyle theme a.state⟩]

/-- Modelled from the spec: one automaton transition. On `<` flush the run
in the current style, switch to Tag and begin accumulating including the
`<`; on `>` append it, flush in the tag style, switch to Text; any other
character accumulates. -/
def scanStep (theme : ColorScheme) (a : ScanAcc) (c : Char) : ScanAcc :=
  if c = '<' then
    { state := .tag, buf := [c], out := scanFlush theme a }
  else if c = '>' then
    { state := .text, buf := [],
      out := a.out ++ [⟨a.buf ++ [c], scanStyle theme .tag⟩] }
  else
    { a with buf := a.buf ++ [c] }

/-- Modelled from the spec: run the automaton over one line starting in
Text with an empty run, flushing any remaining run at line end. -/
def specScanLine (theme : ColorScheme) (l : Str) : Line :=
  scanFlush theme (l.foldl (scanStep theme) ⟨.text, [], []⟩)

/-- The automaton state denoted by the source's `in_tag` flag. -/
def stateOfBool : Bool → ScanState
  | false => .text
  | true => .tag

/-! ## Preview state -/

/-- `PreviewState`; the clipboard handle is opaque, so it is modelled by
its presence. The scroll offset is a `u16` kept as a `Nat` below 2^16. -/
structure PreviewState where
  content : TextW
  original_text : Str
  scroll : Nat
  title : Str
  char_count : Nat
  status_message : Option Str
  clipboard : Option Unit
deriving DecidableEq, Repr

/-- `PreviewState::new_text`: plain-text document, one uniform style. -/
def PreviewState.new_text (env : Env) (file_path : Str) (content_str : Str)
    (theme : ColorScheme) : PreviewState :=
  { content := Text.styled content_str theme.fg
    original_text := content_str
    scroll := 0
    title := file_path
    char_count := content_str.length
    status_message := none
    clipboard := env.clipboardNew }

/-- `PreviewState::new_html`: highlighted HTML-source document. -/
def PreviewState.new_html (env : Env) (file_path : Str) (html_source : Str)
    (theme : ColorScheme) : PreviewState :=
  { content := highlight_html html_source theme
    original_text := html_source
    scroll := 0
    title := file_path
    char_count := html_source.length
    status_message := none
    clipboard := env.clipboardNew }

/-- `PreviewState::scroll_up`: `u16::saturating_sub(1)`. -/
def PreviewState.scroll_up (s : PreviewState) : PreviewState :=
  { s with scroll := s.scroll - 1 }

/-- `PreviewState::scroll_down`: the height is a `usize`, so
`saturating_sub(1) as u16` truncates modulo 2^16; the increment is
`u16::saturating_add(1)`. -/
def PreviewState.scroll_down (s : PreviewState) : PreviewState :=
  let max_scroll := (s.content.length - 1) % 65536
  if s.scroll < max_scroll then
    { s with scroll := min (s.scroll + 1) 65535 }
  else s

/-- `PreviewState::copy_to_clipboard`; also returns the text handed to
`set_text`, if any, so theorems can speak about what was transmitted. -/
def PreviewState.copy_to_clipboard (s : PreviewState) (env : Env) :
    PreviewState × Option Str :=
  let s := if s.clipboard.isNone then { s with clipboard := env.clipboardNew }
    else s
  match s.clipboard with
  | some _ =>
    match env.clipSetText s.original_text with
    | .error e =>
      ({ s with status_message := some (str "Copy failed: " ++ e) },
        some s.original_text)
    | .ok _ => ({ s with status_message := none }, some s.original_text)
  | none =>
    ({ s with status_message := some (str "Clipboard not available") }, none)

/-- A scroll key in Preview mode. -/
inductive ScrollOp
  | up
  | down
deriving DecidableEq, Repr

/-- Apply one scroll key. -/
def applyScroll (s : PreviewState) : ScrollOp → PreviewState
  | .up => s.scroll_up
  | .down => s.scroll_down

/-- Apply a sequence of scroll keys. -/
def applyScrolls (s : PreviewState) (ops : List ScrollOp) : PreviewState :=
  ops.foldl applyScroll s

/-! ## The event loop (`run`) -/

/-- `char::is_whitespace` restricted to the ASCII whitespace the model
uses. -/
def isWs (c : Char) : Bool := c.isWhitespace

/-- `str::trim`. -/
def trim (s : Str) : Str :=
  ((s.dropWhile isWs).reverse.dropWhile isWs).reverse

/-- Accumulator loop for `split_whitespace`. -/
def splitWsAux : Str → Str → List Str
  | [], acc => if acc = [] then [] else [acc.reverse]
  | c :: rest, acc =>
    if isWs c then
      if acc = [] then splitWsAux rest []
      else acc.reverse :: splitWsAux rest []
    else splitWsAux rest (c :: acc)

/-- `str::split_whitespace`: whitespace-separated words, empties dropped. -/
def splitWs (s : Str) : List Str := splitWsAux s []

/-- `AppMode`. -/
inductive AppMode
  | explorer
  | preview
deriving DecidableEq, Repr

/-- The mutable state of `run`: mode, explorer state, optional preview. -/
structure AppState where
  mode : AppMode
  explorer : ExplorerState
  preview : Option PreviewState
deriving DecidableEq, Repr

/-- Key events routed by the loop. -/
inductive KeyCode
  | char (c : Char)
  | up
  | down
  | left
  | right
  | enter
  | backspace
  | esc
deriving DecidableEq, Repr

/-- External calls made during one loop iteration: paths handed to
`opener::open` and texts handed to `set_text`. -/
structure Effects where
  opened : List Str
  copied : List Str
deriving DecidableEq, Repr

/-- No external calls. -/
def Effects.nil : Effects := ⟨[], []⟩

/-- `h`/Left/Backspace in Explorer Normal: go to the parent directory and
reload; the reload's `?` propagates the error. -/
def navigateParent (env : Env) (st : AppState) (ex : ExplorerState) :
    Except Str (AppState × Effects) :=
  match env.parent ex.current_path with
  | some p =>
    match ExplorerState.load_entries { ex with current_path := p } env with
    | .error e => .error e
    | .ok ex2 => .ok ({ st with explorer := ex2 }, Effects.nil)
  | none => .ok ({ st with explorer := ex }, Effects.nil)

/-- `l`/Right/Enter in Explorer Normal: enter the selected entry.
Directory canonicalization and reload failures propagate via `?`;
file-read failures become status messages. -/
def enterSelected (env : Env) (st : AppState) (ex : ExplorerState) :
    Except Str (AppState × Effects) :=
  match ex.selected with
  | none => .ok ({ st with explorer := ex }, Effects.nil)
  | some selected_index =>
    match ex.entries[selected_index]? with
    | none => .ok ({ st with explorer := ex }, Effects.nil)
    | some selected_path =>
      if env.isDir selected_path then
        match env.canonicalize selected_path with
        | .error e => .error e
        | .ok canon =>
          match ExplorerState.load_entries { ex with current_path := canon }
              env with
          | .error e => .error e
          | .ok ex2 => .ok ({ st with explorer := ex2 }, Effects.nil)
      else if env.extension selected_path = some (str "md") then
        match env.readToString selected_path with
        | .ok markdown_input =>
          .ok ({ st with
                  explorer := ex
                  preview := some (PreviewState.new_html env selected_path
                    (env.mdToHtml markdown_input) GITHUB_DARK_THEME)
                  mode := .preview }, Effects.nil)
        | .error e =>
          .ok ({ st with explorer :=
                  ex.set_message (str "ファイル読み込みエラー: " ++ e) true },
            Effects.nil)
      else
        match env.readToString selected_path with
        | .ok file_content =>
          .ok ({ st with
                  explorer := ex
                  preview := some (PreviewState.new_text env selected_path
                    file_content GITHUB_DARK_THEME)
                  mode := .preview }, Effects.nil)
        | .error e =>
          .ok ({ st with explorer :=
                  ex.set_message (str "ファイル読み込みエラー: " ++ e) true },
            Effects.nil)

/-- Enter in command mode: trim and tokenize the buffer, reset the
sub-state, dispatch on the tokens. `:q` surfaces as the sentinel error
`"quit"`, exactly as in the source. -/
def executeCommand (env : Env) (st : AppState) :
    Except Str (AppState × Effects) :=
  let command_text := trim st.explorer.command_input
  let ex := { st.explorer with
              command_input := [], in_command_mode := false,
              status_message := none, is_error := false }
  match splitWs command_text with
  | [] => .ok ({ st with explorer := ex }, Effects.nil)
  | [cmd] =>
    if cmd = str "q" then .error (str "quit")
    else
      .ok ({ st with explorer :=
              ex.set_message (str "不明なコマンドです: " ++ command_text) true },
        Effects.nil)
  | [cmd, filename] =>
    if cmd = str "cat" then
      let file_path := env.pathJoin ex.current_path filename
      if env.isFile file_path = false then
        .ok ({ st with explorer :=
                ex.set_message (str "ファイルが見つかりません: " ++ filename) true },
          Effects.nil)
      else
        match env.readToString file_path with
        | .ok file_content =>
          .ok ({ st with
                  explorer := ex
                  preview := some (PreviewState.new_text env file_path
                    file_content GITHUB_DARK_THEME)
                  mode := .preview }, Effects.nil)
        | .error e =>
          .ok ({ st with explorer :=
                  ex.set_message (str "ファイル読み込みエラー: " ++ e) true },
            Effects.nil)
    else if cmd = str "ob" then
      let file_path := env.pathJoin ex.current_path filename
      if env.isFile file_path = false then
        .ok ({ st with explorer :=
                ex.set_message (str "ファイルが見つかりません: " ++ filename) true },
          Effects.nil)
      else if env.extension file_path ≠ some (str "html") then
        .ok ({ st with explorer :=
                ex.set_message (str "HTMLファイルのみ開けます。") true },
          Effects.nil)
      else
        match env.openerOpen file_path with
        | .error e =>
          .ok ({ st with explorer :=
                  ex.set_message (str "ブラウザで開けませんでした: " ++ e) true },
            ⟨[file_path], []⟩)
        | .ok _ =>
          .ok ({ st with explorer :=
                  ex.set_message (str "ブラウザで開きました: " ++ filename) false },
            ⟨[file_path], []⟩)
    else
      .ok ({ st with explorer :=
              ex.set_message (str "不明なコマンドです: " ++ command_text) true },
        Effects.nil)
  | _ =>
    .ok ({ st with explorer :=
            ex.set_message (str "不明なコマンドです: " ++ command_text) true },
      Effects.nil)

/-- One key-press iteration of the event loop, mirroring the `match mode`
in `run`. `.error` is an unwind out of the loop (fatal, except for the
`"quit"` sentinel). -/
def step (env : Env) (st : AppState) (key : KeyCode) :
    Except Str (AppState × Effects) :=
  match st.mode with
  | .preview =>
    match st.preview with
    | none => .ok (st, Effects.nil)
    | some pv =>
      match key with
      | .up => .ok ({ st with preview := some pv.scroll_up }, Effects.nil)
      | .down => .ok ({ st with preview := some pv.scroll_down }, Effects.nil)
      | .char c =>
        if c = 'q' then
          .ok ({ st with preview := none, mode := .explorer }, Effects.nil)
        else if c = 'k' then
          .ok ({ st with preview := some pv.scroll_up }, Effects.nil)
        else if c = 'j' then
          .ok ({ st with preview := some pv.scroll_down }, Effects.nil)
        else if c = 'y' then
          let r := pv.copy_to_clipboard env
          .ok ({ st with preview := some r.1 }, ⟨[], r.2.toList⟩)
        else .ok (st, Effects.nil)
      | _ => .ok (st, Effects.nil)
  | .explorer =>
    if st.explorer.in_command_mode then
      match key with
      | .enter => executeCommand env st
      | .char c =>
        .ok ({ st with explorer := { st.explorer with
                command_input := st.explorer.command_input ++ [c] } },
          Effects.nil)
      | .backspace =>
        .ok ({ st with explorer := { st.explorer with
                command_input := st.explorer.command_input.dropLast } },
          Effects.nil)
      | .esc =>
        .ok ({ st with explorer := { st.explorer with
                command_input := [], in_command_mode := false } },
          Effects.nil)
      | _ => .ok (st, Effects.nil)
    else
      let ex := st.explorer.clear_message
      match key with
      | .char c =>
        if c = ':' then
          .ok ({ st with explorer := { ex with in_command_mode := true } },
            Effects.nil)
        else if c = 'j' then .ok ({ st with explorer := ex.next }, Effects.nil)
        else if c = 'k' then
          .ok ({ st with explorer := ex.previous }, Effects.nil)
        else if c = 'h' then navigateParent env st ex
        else if c = 'l' then enterSelected env st ex
        else .ok ({ st with explorer := ex }, Effects.nil)
      | .down => .ok ({ st with explorer := ex.next }, Effects.nil)
      | .up => .ok ({ st with explorer := ex.previous }, Effects.nil)
      | .left => navigateParent env st ex
      | .backspace => navigateParent env st ex
      | .right => enterSelected env st ex
      | .enter => enterSelected env st ex
      | .esc => .ok ({ st with explorer := ex }, Effects.nil)

/-- Startup: build the initial Explorer state over the starting directory;
a listing failure propagates. -/
def initApp (env : Env) (cwd : Str) : Except Str AppState :=
  match ExplorerState.new env cwd with
  | .error e => .error e
  | .ok ex => .ok { mode := .explorer, explorer := ex, preview := none }

/-! ## Concrete fixtures -/

/-- A tiny concrete world: directory `/r` holds `a.md`, `b.txt` and the
sub-directory `Sub`. -/
def envA : Env :=
  { readDir := fun p =>
      if p == str "/r" then .ok [str "a.md", str "b.txt", str "Sub"]
      else .error (str "denied")
    isDir := fun p => p == str "Sub"
    isFile := fun p => !(p == str "Sub")
    parent := fun p => if p == str "/r" then none else some (str "/r")
    extension := fun p => if p == str "a.md" then some (str "md") else none
    pathJoin := fun p f => p ++ '/' :: f
    canonicalize := fun p => .ok p
    readToString := fun p =>
      if p == str "a.md" then .ok (str "# Hi") else .error (str "io")
    openerOpen := fun _ => .ok ()
    mdToHtml := fun _ => str "<h1>Hi</h1>\n"
    clipboardNew := some ()
    clipSetText := fun _ => .ok () }

/-- A fresh Explorer over `/r`, before any listing. -/
def exA : ExplorerState :=
  { current_path := str "/r", entries := [], selected := none,
    status_message := none, is_error := false,
    command_input := [], in_command_mode := false }

/-- The Explorer state after listing `/r` in `envA`. -/
def exAres : ExplorerState :=
  { exA with
    entries := [str "Sub", str "a.md", str "b.txt"]
    selected := some 0 }

/-- A small plain-text preview document. -/
def pvA : PreviewState :=
  PreviewState.new_text envA (str "b.txt") (str "a\nb\nc") GITHUB_DARK_THEME

/-- A preview document one line taller than the `u16` range. -/
def pvBig : PreviewState :=
  { content := List.replicate 65537 ([] : Line)
    original_text := []
    scroll := 0
    title := []
    char_count := 0
    status_message := none
    clipboard := none }

/-- `envA` with a readable `/r/b.txt`. -/
def envB : Env :=
  { envA with
    readToString := fun p =>
      if p == str "/r/b.txt" then .ok (str "héllo") else .error (str "io") }

/-- `envA` with no clipboard and a failing `set_text`. -/
def envNoClip : Env :=
  { envA with
    clipboardNew := none
    clipSetText := fun _ => .error (str "err") }

/-- `pvA` with its clipboard handle lost. -/
def pvNoClip : PreviewState := { pvA with clipboard := none }

/-- Explorer over `/r` about to execute `:cat b.txt`. -/
def stCat : AppState :=
  { mode := .explorer
    explorer := { exAres with
      in_command_mode := true
      command_input := str "cat b.txt" }
    preview := none }

/-- `envA` where `/r/index.html` has the `html` extension. -/
def envOb : Env :=
  { envA with
    extension := fun p =>
      if p == str "/r/index.html" then some (str "html") else none }

/-- Explorer over `/r` about to execute `:ob index.html`. -/
def stOb : AppState :=
  { mode := .explorer
    explorer := { exAres with
      in_command_mode := true
      command_input := str "ob index.html" }
    preview := none }

/-- Explorer over `/r` about to execute `:ob readme.md`. -/
def stObMd : AppState :=
  { mode := .explorer
    explorer := { exAres with
      in_command_mode := true
      command_input := str "ob readme.md" }
    preview := none }

/-- `envA` in which every directory has the unreadable parent `/locked`. -/
def envDeny : Env := { envA with parent := fun _ => some (str "/locked") }

/-- An Explorer session at `/r` in Normal sub-state. -/
def stNorm : AppState :=
  { mode := .explorer, explorer := exAres, preview := none }

/-- A Preview session over `pvA`. -/
def stPrev : AppState :=
  { mode := .preview, explorer := exAres, preview := some pvA }

/-! ## Theorems -/

/-! ### The listing comparator is a total preorder -/

theorem lexCmp_eq_iff : ∀ a b : Str, lexCmp a b = .eq ↔ a = b := by
  intro a
  induction a with
  | nil => intro b; cases b <;> simp [lexCmp]
  | cons x xs ih =>
    intro b
    cases b with
    | nil => simp [lexCmp]
    | cons y ys =>
      simp only [lexCmp]
      rcases lt_trichotomy x y with hxy | hxy | hxy
      · rw [if_pos hxy]
        constructor
        · intro h; exact absurd h (by decide)
        · intro h
          injection h with h1 _
          exact absurd h1 (ne_of_lt hxy)
      · subst hxy
        simp [lt_irrefl, List.cons.injEq, ih]
      · rw [if_neg (not_lt.mpr hxy.le), if_pos hxy]
        constructor
        · intro h; exact absurd h (by decide)
        · intro h
          injection h with h1 _
          exact absurd h1 (ne_of_gt hxy)

theorem lexCmp_swap : ∀ a b : Str, (lexCmp a b).swap = lexCmp b a := by
  intro a
  induction a with
  | nil => intro b; cases b <;> simp [lexCmp, Ordering.swap]
  | cons x xs ih =>
    intro b
    cases b with
    | nil => simp [lexCmp, Ordering.swap]
    | cons y ys =>
      simp only [lexCmp]
      rcases lt_trichotomy x y with hxy | hxy | hxy
      · rw [if_pos hxy, if_neg (not_lt.mpr hxy.le), if_pos hxy]
        rfl
      · subst hxy
        simp [lt_irrefl, ih]
      · rw [if_neg (not_lt.mpr hxy.le), if_pos hxy, if_pos hxy]
        rfl

theorem lexCmp_trans_lt : ∀ a b c : Str,
    lexCmp a b = .lt → lexCmp b c = .lt → lexCmp a c = .lt := by
  intro a
  induction a with
  | nil =>
    intro b c hab hbc
    cases b with
    | nil => simpa [lexCmp] using hbc
    | cons y ys =>
      cases c with
      | nil => simp [lexCmp] at hbc
      | cons z zs => simp [lexCmp]
  | cons x xs ih =>
    intro b c hab hbc
    cases b with
    | nil => simp [lexCmp] at hab
    | cons y ys =>
      cases c with
      | nil => simp [lexCmp] at hbc
      | cons z zs =>
        simp only [lexCmp] at hab hbc ⊢
        rcases lt_trichotomy x y with hxy | hxy | hxy
        · -- x < y, and y ≤ z in every surviving case of hbc, so x < z
          rcases lt_trichotomy y z with hyz | hyz | hyz
          · rw [if_pos (lt_trans hxy hyz)]
          · subst hyz
            rw [if_pos hxy]
          · rw [if_neg (not_lt.mpr hyz.le), if_pos hyz] at hbc
            exact absurd hbc (by decide)
        · subst hxy
          rw [if_neg (lt_irrefl x), if_neg (lt_irrefl x)] at hab
          rcases lt_trichotomy x z with hyz | hyz | hyz
          · rw [if_pos hyz]
          · subst hyz
            rw [if_neg (lt_irrefl x), if_neg (lt_irrefl x)] at hbc ⊢
            exact ih ys zs hab hbc
          · rw [if_neg (not_lt.mpr hyz.le), if_pos hyz] at hbc
            exact absurd hbc (by decide)
        · rw [if_neg (not_lt.mpr hxy.le), if_pos hxy] at hab
          exact absurd hab (by decide)

theorem lexCmp_not_gt_total : ∀ a b : Str,
    lexCmp a b ≠ .gt ∨ lexCmp b a ≠ .gt := by
  intro a b
  rcases h : lexCmp a b with _ | _ | _
  · left; simp [h]
  · left; simp [h]
  · right
    have hs := lexCmp_swap a b
    rw [h] at hs
    intro hba
    rw [hba] at hs
    exact absurd hs (by decide)

theorem lexCmp_not_gt_trans (a b c : Str) (hab : lexCmp a b ≠ .gt)
    (hbc : lexCmp b c ≠ .gt) : lexCmp a c ≠ .gt := by
  rcases h1 : lexCmp a b with _ | _ | _
  · rcases h2 : lexCmp b c with _ | _ | _
    · rw [lexCmp_trans_lt a b c h1 h2]
      exact (by decide : (Ordering.lt : Ordering) ≠ .gt)
    · rw [(lexCmp_eq_iff b c).mp h2] at h1
      simp [h1]
    · exact absurd h2 hbc
  · rw [(lexCmp_eq_iff a b).mp h1]
    exact hbc
  · exact absurd h1 hab

theorem bne_gt_true_iff (a : Ordering) : (a != .gt) = true ↔ a ≠ .gt := by
  cases a <;> decide

theorem entryLe_true_iff (d : Str → Bool) (a b : Str) :
    entryLe d a b = true ↔ entryOrd d a b ≠ .gt := by
  simp only [entryLe]
  exact bne_gt_true_iff _

theorem entryLe_trans (d : Str → Bool) (a b c : Str)
    (hab : entryLe d a b = true) (hbc : entryLe d b c = true) :
    entryLe d a c = true := by
  rw [entryLe_true_iff] at hab hbc ⊢
  cases hda : d a <;> cases hdb : d b <;> cases hdc : d c <;>
    simp [entryOrd, boolCmp, hda, hdb, hdc, Ordering.swap, Ordering.then]
      at hab hbc ⊢
  · exact lexCmp_not_gt_trans a b c hab hbc
  · exact lexCmp_not_gt_trans a b c hab hbc

theorem entryLe_total (d : Str → Bool) (a b : Str) :
    (entryLe d a b || entryLe d b a) = true := by
  simp only [Bool.or_eq_true, entryLe_true_iff]
  cases hda : d a <;> cases hdb : d b <;>
    simp [entryOrd, boolCmp, hda, hdb, Ordering.swap, Ordering.then]
  · exact lexCmp_not_gt_total a b
  · exact lexCmp_not_gt_total a b

theorem entryLe_imp (d : Str → Bool) (a b : Str)
    (h : entryLe d a b = true) :
    (d b = true → d a = true) ∧ (d a = d b → lexCmp a b ≠ .gt) := by
  rw [entryLe_true_iff] at h
  cases hda : d a <;> cases hdb : d b <;>
    simp [entryOrd, boolCmp, hda, hdb, Ordering.swap, Ordering.then] at h ⊢
  · exact h
  · exact h

theorem sortEntries_pairwise (d : Str → Bool) (paths : List Str) :
    (sortEntries d paths).Pairwise (fun a b => entryLe d a b = true) := by
  haveI : IsTotal Str (fun a b => entryLe d a b = true) := by
    constructor
    intro a b
    have := entryLe_total d a b
    rcases Bool.or_eq_true_iff.mp this with h | h
    · exact Or.inl h
    · exact Or.inr h
  haveI : IsTrans Str (fun a b => entryLe d a b = true) := by
    constructor
    intro a b c hab hbc
    exact entryLe_trans d a b c hab hbc
  exact List.sorted_insertionSort (fun a b => entryLe d a b = true) paths

theorem sortEntries_perm (d : Str → Bool) (paths : List Str) :
    (sortEntries d paths).Perm paths :=
  List.perm_insertionSort (fun a b => entryLe d a b = true) paths

/-! ### String splitting round trip -/

theorem splitNl_ne_nil : ∀ s : Str, splitNl s ≠ [] := by
  intro s
  cases s with
  | nil => simp [splitNl]
  | cons c rest =>
    simp only [splitNl]
    rcases h : splitNl rest with _ | ⟨l, ls⟩
    · simp
    · by_cases hc : c = '\n' <;> simp [hc]

theorem joinNl_splitNl : ∀ s : Str, joinNl (splitNl s) = s := by
  intro s
  induction s with
  | nil => simp [splitNl, joinNl]
  | cons c rest ih =>
    rcases h : splitNl rest with _ | ⟨l, ls⟩
    · exact absurd h (splitNl_ne_nil rest)
    · rw [h] at ih
      by_cases hc : c = '\n'
      · subst hc
        simp only [splitNl, h, if_pos rfl, joinNl, List.nil_append]
        rw [ih]
      · simp only [splitNl, h, if_neg hc]
        cases ls with
        | nil =>
          simp only [joinNl] at ih ⊢
          rw [ih]
        | cons x xs =>
          simp only [joinNl] at ih ⊢
          rw [← ih]
          simp

theorem lineText_single (t : Str) (c : ColorV) :
    lineText [⟨t, c⟩] = t := by
  simp [lineText]

theorem displayText_styled (s : Str) (c : ColorV) :
    displayText (Text.styled s c) = joinNl (rustLines s) := by
  simp only [displayText, Text.styled, List.map_map]
  have : (lineText ∘ fun l => ([⟨l, c⟩] : Line)) = id := by
    funext l
    simp [lineText]
  rw [this, List.map_id]

theorem stripTrailingCr_of_not_mem (l : Str) (h : '\r' ∉ l) :
    stripTrailingCr l = l := by
  rcases hg : l.getLast? with _ | c
  · simp [stripTrailingCr, hg]
  · by_cases hc : c = '\r'
    · subst hc
      exact absurd (List.mem_of_mem_getLast? hg) h
    · simp [stripTrailingCr, hg, hc]

theorem mem_of_mem_splitNl : ∀ (s l : Str) (c : Char),
    l ∈ splitNl s → c ∈ l → c ∈ s := by
  intro s
  induction s with
  | nil =>
    intro l c hl hc
    simp [splitNl] at hl
    subst hl
    cases hc
  | cons ch rest ih =>
    intro l c hl hc
    rcases hsp : splitNl rest with _ | ⟨l0, ls⟩
    · exact absurd hsp (splitNl_ne_nil rest)
    · simp only [splitNl, hsp] at hl
      by_cases hch : ch = '\n'
      · subst hch
        rw [if_pos rfl] at hl
        rcases List.mem_cons.mp hl with rfl | hl2
        · cases hc
        · have hlr : l ∈ splitNl rest := by
            rw [hsp]
            exact hl2
          exact List.mem_cons_of_mem _ (ih l c hlr hc)
      · rw [if_neg hch] at hl
        rcases List.mem_cons.mp hl with rfl | hl2
        · rcases List.mem_cons.mp hc with rfl | hc2
          · exact List.mem_cons_self _ _
          · have hl0 : l0 ∈ splitNl rest := by
              rw [hsp]
              exact List.mem_cons_self _ _
            exact List.mem_cons_of_mem _ (ih l0 c hl0 hc2)
        · have hlr : l ∈ splitNl rest := by
            rw [hsp]
            exact List.mem_cons_of_mem _ hl2
          exact List.mem_cons_of_mem _ (ih l c hlr hc)

theorem splitNl_cons (c : Char) (rest : Str) :
    splitNl (c :: rest)
      = match splitNl rest with
        | [] => [[]]
        | l :: ls => if c = '\n' then [] :: l :: ls else (c :: l) :: ls := rfl

theorem splitNl_getLast_ne : ∀ s : Str, s ≠ [] → s.getLast? ≠ some '\n' →
    (splitNl s).getLast? ≠ some ([] : Str) := by
  intro s
  induction s with
  | nil => intro h; exact absurd rfl h
  | cons c rest ih =>
    intro _ hlast
    rcases hsp : splitNl rest with _ | ⟨l0, ls⟩
    · exact absurd hsp (splitNl_ne_nil rest)
    · rcases hrest : rest with _ | ⟨c2, rest2⟩
      · subst hrest
        have hc : c ≠ '\n' := by
          intro hh
          exact hlast (by simp [hh])
        simp [splitNl, hc]
      · subst hrest
        have hlast2 : (c2 :: rest2).getLast? ≠ some '\n' := hlast
        have ih2 := ih (List.cons_ne_nil c2 rest2) hlast2
        rw [hsp] at ih2
        rw [splitNl_cons, hsp]
        show (if c = '\n' then [] :: l0 :: ls
          else (c :: l0) :: ls).getLast? ≠ some ([] : Str)
        by_cases hc : c = '\n'
        · rw [if_pos hc]
          exact ih2
        · rw [if_neg hc]
          rcases ls with _ | ⟨x, xs⟩
          · simp
          · exact ih2

theorem joinNl_rustLines (s : Str) (hr : '\r' ∉ s)
    (hn : s.getLast? ≠ some '\n') : joinNl (rustLines s) = s := by
  have hmap : (splitNl s).map stripTrailingCr = splitNl s := by
    rw [List.map_congr_left (fun l hl => stripTrailingCr_of_not_mem l
      (fun hcr => hr (mem_of_mem_splitNl s l '\r' hl hcr)))]
    simp
  by_cases hs : s = []
  · subst hs
    rfl
  · have hlast := splitNl_getLast_ne s hs hn
    simp only [rustLines, if_neg hlast]
    rw [hmap]
    exact joinNl_splitNl s

/-! ### Claim theorems -/

/-- Claim C2: every directory listing produced by `load_entries` is a
deterministic total arrangement of the paths the directory read returned,
in which every directory precedes every file and entries of equal kind are
in ascending lexicographic path order. -/
theorem C2_reload_sorted (env : Env) (s s2 : ExplorerState)
    (h : ExplorerState.load_entries s env = .ok s2) :
    (∃ paths, env.readDir s.current_path = .ok paths ∧
      s2.entries.Perm paths) ∧
    s2.entries.Pairwise (fun a b =>
      (env.isDir b = true → env.isDir a = true) ∧
      (env.isDir a = env.isDir b → lexCmp a b ≠ .gt)) := by
  rcases hr : env.readDir s.current_path with e | paths <;>
    simp only [ExplorerState.load_entries, hr] at h
  · cases h
  · injection h with h
    subst h
    refine ⟨⟨paths, rfl, sortEntries_perm env.isDir paths⟩, ?_⟩
    exact (sortEntries_pairwise env.isDir paths).imp
      (fun hle => entryLe_imp env.isDir _ _ hle)

/-- Witness for C2 at the concrete world `envA`. -/
theorem C2_reload_sorted_witness :
    (∃ paths, envA.readDir exA.current_path = .ok paths ∧
      exAres.entries.Perm paths) ∧
    exAres.entries.Pairwise (fun a b =>
      (envA.isDir b = true → envA.isDir a = true) ∧
      (envA.isDir a = envA.isDir b → lexCmp a b ≠ .gt)) :=
  C2_reload_sorted envA exA exAres rfl

/-- Claim C3: after every successful reload the selection is `0` on a
non-empty listing and `None` on an empty one; `load_entries` establishes
and `next`/`previous` preserve the invariant that the selection is absent
exactly when the listing is empty and otherwise in range. -/
theorem C3_selection_invariant (env : Env) (s s2 : ExplorerState) :
    (ExplorerState.load_entries s env = .ok s2 →
      s2.selected = (if s2.entries.isEmpty then none else some 0) ∧
      selInv s2 = true) ∧
    (selInv s = true → selInv s.next = true ∧ selInv s.previous = true) ∧
    (selInv s = true →
      ((s.selected = none ↔ s.entries = []) ∧
        ∀ i, s.selected = some i → i < s.entries.length)) := by
  refine ⟨?_, ?_, ?_⟩
  · intro h
    rcases hr : env.readDir s.current_path with e | paths <;>
      simp only [ExplorerState.load_entries, hr] at h
    · cases h
    · injection h with h
      subst h
      constructor
      · rfl
      · rcases hE : sortEntries env.isDir paths with _ | ⟨x, xs⟩ <;>
          simp [selInv, hE]
  · intro hs
    constructor
    · rcases hE : s.entries with _ | ⟨x, xs⟩
      · simpa [ExplorerState.next, hE] using hs
      · rcases hsel : s.selected with _ | i <;>
          simp_all [ExplorerState.next, hE, selInv, hsel]
        split <;> simp <;> omega
    · rcases hE : s.entries with _ | ⟨x, xs⟩
      · simpa [ExplorerState.previous, hE] using hs
      · rcases hsel : s.selected with _ | i <;>
          simp_all [ExplorerState.previous, hE, selInv, hsel]
        split <;> omega
  · intro hs
    rcases hsel : s.selected with _ | i <;> simp_all [selInv, hsel]
    intro h
    simp [h] at hs

/-- Witness for C3 at the concrete world `envA`. -/
theorem C3_selection_invariant_witness :
    (exAres.selected = (if exAres.entries.isEmpty then none else some 0) ∧
      selInv exAres = true) ∧
    (selInv exAres.next = true ∧ selInv exAres.previous = true) :=
  ⟨(C3_selection_invariant envA exA exAres).1 rfl,
    (C3_selection_invariant envA exAres exA).2.1 (by decide)⟩

/-- Claim C9, amended: the plain-text pipeline applies no transformation
beyond the widget's `str::lines` splitting, and uses a single uniform
style; consequently, for every source with no carriage return and no
trailing newline the displayed text of the rendered content equals the
raw source exactly. As stated universally the claim is false of the
program: `str::lines` drops the final empty segment of a trailing
newline and strips `'\r'` before a line break, so such sources do not
read back verbatim (see the counterexample). -/
theorem C9_plaintext_roundtrip (env : Env) (file_path content_str : Str)
    (theme : ColorScheme) :
    displayText (PreviewState.new_text env file_path content_str theme).content
      = joinNl (rustLines content_str) ∧
    ('\r' ∉ content_str → content_str.getLast? ≠ some '\n' →
      displayText
          (PreviewState.new_text env file_path content_str theme).content
        = (PreviewState.new_text env file_path content_str
            theme).original_text) ∧
    ∀ line ∈ (PreviewState.new_text env file_path content_str theme).content,
      ∃ t, line = [Span.mk t theme.fg] := by
  refine ⟨?_, ?_, ?_⟩
  · simpa [PreviewState.new_text] using displayText_styled content_str theme.fg
  · intro hr hn
    simp only [PreviewState.new_text]
    rw [displayText_styled]
    exact joinNl_rustLines content_str hr hn
  · intro line hline
    simp only [PreviewState.new_text, Text.styled, List.mem_map] at hline
    obtain ⟨l, _, rfl⟩ := hline
    exact ⟨l, rfl⟩

/-- Counterexample to C9 as stated: for the raw source `"hello\n"` the
widget's `str::lines` view drops the trailing newline's empty segment, so
the displayed text of the rendered content is `"hello"`, not the raw
source. -/
theorem C9_roundtrip_counterexample :
    displayText (PreviewState.new_text envA (str "b.txt") (str "hello\n")
        GITHUB_DARK_THEME).content
      ≠ (PreviewState.new_text envA (str "b.txt") (str "hello\n")
        GITHUB_DARK_THEME).original_text := by decide

/-! ### Highlighting scanner lemmas -/

theorem scanStyle_stateOfBool (theme : ColorScheme) (tag : Bool) :
    scanStyle theme (stateOfBool tag) = flushColor theme tag := by
  cases tag <;> rfl

theorem scanFlush_mk (theme : ColorScheme) (tag : Bool) (cur : Str)
    (spans : Line) :
    scanFlush theme ⟨stateOfBool tag, cur, spans⟩
      = if cur ≠ [] then spans ++ [⟨cur, flushColor theme tag⟩] else spans := by
  simp only [scanFlush, scanStyle_stateOfBool]
  by_cases hc : cur = [] <;> simp [hc]

theorem stateOfBool_true : stateOfBool true = .tag := rfl

theorem stateOfBool_false : stateOfBool false = .text := rfl

theorem highlightGo_lt (theme : ColorScheme) (rest : Str) (spans : Line)
    (cur : Str) (tag : Bool) :
    highlightGo theme ('<' :: rest) spans cur tag
      = highlightGo theme rest
          (if cur ≠ [] then spans ++ [⟨cur, flushColor theme tag⟩] else spans)
          ['<'] true := rfl

theorem highlightGo_gtc (theme : ColorScheme) (rest : Str) (spans : Line)
    (cur : Str) (tag : Bool) :
    highlightGo theme ('>' :: rest) spans cur tag
      = highlightGo theme rest (spans ++ [⟨cur ++ ['>'], theme.comment⟩])
          [] false := rfl

theorem highlightGo_other (theme : ColorScheme) (c : Char) (rest : Str)
    (spans : Line) (cur : Str) (tag : Bool) (h1 : c ≠ '<') (h2 : c ≠ '>') :
    highlightGo theme (c :: rest) spans cur tag
      = highlightGo theme rest spans (cur ++ [c]) tag := by
  simp [highlightGo, h1, h2]

theorem highlightGo_eq_scan (theme : ColorScheme) :
    ∀ (l : Str) (spans : Line) (cur : Str) (tag : Bool),
      highlightGo theme l spans cur tag
        = scanFlush theme
            (l.foldl (scanStep theme) ⟨stateOfBool tag, cur, spans⟩) := by
  intro l
  induction l with
  | nil =>
    intro spans cur tag
    simp only [highlightGo, List.foldl_nil, scanFlush_mk]
  | cons c rest ih =>
    intro spans cur tag
    rw [List.foldl_cons]
    by_cases h1 : c = '<'
    · subst h1
      rw [highlightGo_lt, ih]
      congr 2 <;> simp [scanStep, scanFlush_mk, stateOfBool_true]
    · by_cases h2 : c = '>'
      · subst h2
        rw [highlightGo_gtc, ih]
        congr 2 <;> simp [scanStep, h1, stateOfBool_false, scanStyle]
      · rw [highlightGo_other theme c rest spans cur tag h1 h2, ih]
        congr 2 <;> simp [scanStep, h1, h2]

theorem lineText_append (a b : Line) :
    lineText (a ++ b) = lineText a ++ lineText b := by
  simp [lineText]

theorem highlightGo_lineText (theme : ColorScheme) :
    ∀ (l : Str) (spans : Line) (cur : Str) (tag : Bool),
      lineText (highlightGo theme l spans cur tag)
        = lineText spans ++ cur ++ l := by
  intro l
  induction l with
  | nil =>
    intro spans cur tag
    by_cases hc : cur = [] <;>
      simp [highlightGo, hc, lineText_append, lineText]
  | cons c rest ih =>
    intro spans cur tag
    by_cases h1 : c = '<'
    · subst h1
      rw [highlightGo_lt, ih]
      by_cases hc : cur = [] <;>
        simp [hc, lineText_append, lineText]
    · by_cases h2 : c = '>'
      · subst h2
        rw [highlightGo_gtc, ih]
        simp [lineText_append, lineText]
      · rw [highlightGo_other theme c rest spans cur tag h1 h2, ih]
        simp

/-- Claim C7: the markdown-path highlighter is exactly the two-state
{Text, Tag} automaton of the spec — `highlight_html` maps the
spec-modelled `specScanLine` over the physical lines, producing one styled
line per physical line, and the character content of every scanned line is
preserved verbatim (the HTML is never interpreted as markup). -/
theorem C7_highlight_automaton (html_source : Str) (theme : ColorScheme) :
    highlight_html html_source theme
      = (rustLines html_source).map (specScanLine theme) ∧
    (highlight_html html_source theme).length
      = (rustLines html_source).length ∧
    ∀ line ∈ rustLines html_source,
      lineText (highlightGo theme line [] [] false) = line := by
  have hfun : (fun line => highlightGo theme line [] [] false)
      = specScanLine theme := by
    funext l
    rw [highlightGo_eq_scan]
    rfl
  refine ⟨?_, ?_, ?_⟩
  · simp only [highlight_html]
    rw [hfun]
  · simp [highlight_html]
  · intro line _
    rw [highlightGo_lineText]
    simp [lineText]

/-- Witness for C7 at the spec's own scenario `<h1>Hi</h1>`. -/
theorem C7_highlight_automaton_witness :
    highlight_html (str "<h1>Hi</h1>") GITHUB_DARK_THEME
      = (rustLines (str "<h1>Hi</h1>")).map (specScanLine GITHUB_DARK_THEME) ∧
    lineText (highlightGo GITHUB_DARK_THEME (str "<h1>Hi</h1>") [] [] false)
      = str "<h1>Hi</h1>" :=
  ⟨(C7_highlight_automaton (str "<h1>Hi</h1>") GITHUB_DARK_THEME).1,
    (C7_highlight_automaton (str "<h1>Hi</h1>") GITHUB_DARK_THEME).2.2
      (str "<h1>Hi</h1>") (by decide)⟩

/-! ### Scrolling lemmas -/

theorem applyScroll_content (s : PreviewState) (op : ScrollOp) :
    (applyScroll s op).content = s.content := by
  cases op
  · rfl
  · simp only [applyScroll, PreviewState.scroll_down]
    by_cases hlt : s.scroll < (s.content.length - 1) % 65536 <;>
      simp [hlt]

theorem applyScroll_le (s : PreviewState) (op : ScrollOp)
    (h : s.scroll ≤ s.content.length - 1) :
    (applyScroll s op).scroll ≤ s.content.length - 1 := by
  cases op
  · exact le_trans (Nat.sub_le _ _) h
  · simp only [applyScroll, PreviewState.scroll_down]
    by_cases hlt : s.scroll < (s.content.length - 1) % 65536
    · rw [if_pos hlt]
      calc min (s.scroll + 1) 65535 ≤ s.scroll + 1 := Nat.min_le_left _ _
        _ ≤ (s.content.length - 1) % 65536 := hlt
        _ ≤ s.content.length - 1 := Nat.mod_le _ _
    · rw [if_neg hlt]
      exact h

/-- Claim C8: starting from any document whose scroll offset is within
`[0, max (0, height-1)]` (all freshly built documents start at `0`),
every sequence of `scroll_up`/`scroll_down` keeps the offset within that
interval and leaves the content untouched; the lower bound `0` is carried
by the `Nat` type of the model. -/
theorem C8_scroll_bounds (s : PreviewState) (ops : List ScrollOp)
    (h : s.scroll ≤ s.content.length - 1) :
    (applyScrolls s ops).scroll ≤ s.content.length - 1 ∧
    (applyScrolls s ops).content = s.content := by
  induction ops generalizing s with
  | nil => exact ⟨h, rfl⟩
  | cons op rest ih =>
    simp only [applyScrolls, List.foldl_cons] at *
    have hc := applyScroll_content s op
    have h1 := applyScroll_le s op h
    have h2 := ih (applyScroll s op) (by rw [hc]; exact h1)
    rw [hc] at h2
    exact h2

/-- Witness for C8 on a three-line document. -/
theorem C8_scroll_bounds_witness :
    (applyScrolls pvA [ScrollOp.down, .down, .down, .up]).scroll
      ≤ pvA.content.length - 1 ∧
    (applyScrolls pvA [ScrollOp.down, .down, .down, .up]).content
      = pvA.content :=
  C8_scroll_bounds pvA [ScrollOp.down, .down, .down, .up] (by decide)

theorem applyScroll_le_mod (s : PreviewState) (op : ScrollOp)
    (h : s.scroll ≤ (s.content.length - 1) % 65536) :
    (applyScroll s op).scroll ≤ (s.content.length - 1) % 65536 := by
  cases op
  · exact le_trans (Nat.sub_le _ _) h
  · simp only [applyScroll, PreviewState.scroll_down]
    by_cases hlt : s.scroll < (s.content.length - 1) % 65536
    · rw [if_pos hlt]
      exact le_trans (Nat.min_le_left _ _) hlt
    · rw [if_neg hlt]
      exact h

theorem applyScrolls_le_mod (s : PreviewState) (ops : List ScrollOp)
    (h : s.scroll ≤ (s.content.length - 1) % 65536) :
    (applyScrolls s ops).scroll ≤ (s.content.length - 1) % 65536 := by
  induction ops generalizing s with
  | nil => exact h
  | cons op rest ih =>
    simp only [applyScrolls, List.foldl_cons] at *
    have hc := applyScroll_content s op
    have h2 := ih (applyScroll s op) (by rw [hc]; exact applyScroll_le_mod s op h)
    rw [hc] at h2
    exact h2

theorem scroll_down_run (s : PreviewState) :
    ∀ n, s.scroll + n ≤ (s.content.length - 1) % 65536 →
      (applyScrolls s (List.replicate n .down)).scroll = s.scroll + n := by
  intro n
  induction n generalizing s with
  | zero => intro _; rfl
  | succ n ih =>
    intro hn
    have hlt : s.scroll < (s.content.length - 1) % 65536 := by omega
    have hmax : (s.content.length - 1) % 65536 ≤ 65535 := by omega
    have hstep : applyScroll s .down
        = { s with scroll := s.scroll + 1 } := by
      simp only [applyScroll, PreviewState.scroll_down, if_pos hlt]
      congr 1
      omega
    rw [List.replicate_succ]
    simp only [applyScrolls, List.foldl_cons] at *
    rw [hstep]
    have := ih { s with scroll := s.scroll + 1 } (by simp; omega)
    simp only at this
    rw [this]
    omega

/-- Claim C10: the scroll offset is a `u16` and `scroll_down` caps it at
the rendered height minus one truncated to 16 bits, so on a document
taller than 2^16 lines the reachable maximum is `(height - 1) % 2^16`,
strictly below `height - 1`: the tail of the document can never be
scrolled to. -/
theorem C10_u16_truncated_scroll (s : PreviewState)
    (hbig : 65536 < s.content.length) (h0 : s.scroll = 0) :
    (∀ ops, (applyScrolls s ops).scroll ≤ (s.content.length - 1) % 65536) ∧
    (applyScrolls s
        (List.replicate ((s.content.length - 1) % 65536) .down)).scroll
      = (s.content.length - 1) % 65536 ∧
    (s.content.length - 1) % 65536 < s.content.length - 1 := by
  refine ⟨?_, ?_, by omega⟩
  · intro ops
    exact applyScrolls_le_mod s ops (by omega)
  · rw [scroll_down_run s ((s.content.length - 1) % 65536) (by omega)]
    omega

/-- Witness for C10 on a 65537-line document, where the cap truncates to
`0`. -/
theorem C10_u16_truncated_scroll_witness :
    (applyScrolls pvBig [ScrollOp.down]).scroll
      ≤ (pvBig.content.length - 1) % 65536 ∧
    (applyScrolls pvBig
        (List.replicate ((pvBig.content.length - 1) % 65536)
          ScrollOp.down)).scroll
      = (pvBig.content.length - 1) % 65536 ∧
    (pvBig.content.length - 1) % 65536 < pvBig.content.length - 1 := by
  have hlen : pvBig.content.length = 65537 := by
    rw [show pvBig.content = List.replicate 65537 ([] : Line) from rfl,
      List.length_replicate]
  have h := C10_u16_truncated_scroll pvBig (by rw [hlen]; omega) rfl
  exact ⟨h.1 [ScrollOp.down], h.2.1, h.2.2⟩

/-- Witness for C9 on a two-line non-ASCII source with no carriage return
and no trailing newline. -/
theorem C9_plaintext_roundtrip_witness :
    displayText (PreviewState.new_text envA (str "b.txt") (str "hé\nlo")
        GITHUB_DARK_THEME).content
      = (PreviewState.new_text envA (str "b.txt") (str "hé\nlo")
        GITHUB_DARK_THEME).original_text ∧
    (∃ t, [Span.mk (str "hé") GITHUB_DARK_THEME.fg]
      = [Span.mk t GITHUB_DARK_THEME.fg]) :=
  ⟨(C9_plaintext_roundtrip envA (str "b.txt") (str "hé\nlo")
      GITHUB_DARK_THEME).2.1 (by decide) (by decide),
    (C9_plaintext_roundtrip envA (str "b.txt") (str "hé\nlo")
      GITHUB_DARK_THEME).2.2
      [Span.mk (str "hé") GITHUB_DARK_THEME.fg] (by decide)⟩

/-! ### Event-loop routing lemmas -/

theorem step_cmd_enter (env : Env) (st : AppState)
    (hm : st.mode = .explorer) (hc : st.explorer.in_command_mode = true) :
    step env st .enter = executeCommand env st := by
  simp [step, hm, hc]

theorem step_normal_enter (env : Env) (st : AppState)
    (hm : st.mode = .explorer) (hc : st.explorer.in_command_mode = false) :
    step env st .enter = enterSelected env st st.explorer.clear_message := by
  simp [step, hm, hc]

theorem step_normal_left (env : Env) (st : AppState)
    (hm : st.mode = .explorer) (hc : st.explorer.in_command_mode = false) :
    step env st .left = navigateParent env st st.explorer.clear_message := by
  simp [step, hm, hc]

theorem step_preview_y (env : Env) (st : AppState) (pv : PreviewState)
    (hm : st.mode = .preview) (hp : st.preview = some pv) :
    step env st (.char 'y')
      = .ok ({ st with preview := some (pv.copy_to_clipboard env).1 },
          ⟨[], (pv.copy_to_clipboard env).2.toList⟩) := by
  simp [step, hm, hp]

/-- Claim C4: copying always hands exactly the raw original source text to
`set_text`, never the styled rendering; a successful copy clears the
transient status, a missing handle sets the "clipboard not available"
status (the code capitalizes it as `Clipboard not available`), and a
`set_text` failure sets the "copy failed: …" status (code:
`Copy failed: …`). -/
theorem C4_clipboard_raw_source (s : PreviewState) (env : Env) :
    ((s.copy_to_clipboard env).2 = none ∨
      (s.copy_to_clipboard env).2 = some s.original_text) ∧
    (s.clipboard = none → env.clipboardNew = none →
      (s.copy_to_clipboard env).2 = none ∧
      (s.copy_to_clipboard env).1.status_message
        = some (str "Clipboard not available")) ∧
    ((s.clipboard.isSome ∨ env.clipboardNew.isSome) →
      (s.copy_to_clipboard env).2 = some s.original_text ∧
      (env.clipSetText s.original_text = .ok () →
        (s.copy_to_clipboard env).1.status_message = none) ∧
      (∀ e, env.clipSetText s.original_text = .error e →
        (s.copy_to_clipboard env).1.status_message
          = some (str "Copy failed: " ++ e))) := by
  refine ⟨?_, ?_, ?_⟩
  · rcases hcb : s.clipboard with _ | u
    · rcases hnew : env.clipboardNew with _ | v
      · exact Or.inl (by simp [PreviewState.copy_to_clipboard, hcb, hnew])
      · cases v
        refine Or.inr ?_
        rcases hset : env.clipSetText s.original_text with e | u2 <;>
          simp [PreviewState.copy_to_clipboard, hcb, hnew, hset]
    · cases u
      refine Or.inr ?_
      rcases hset : env.clipSetText s.original_text with e | u2 <;>
        simp [PreviewState.copy_to_clipboard, hcb, hset]
  · intro h1 h2
    refine ⟨?_, ?_⟩ <;> simp [PreviewState.copy_to_clipboard, h1, h2]
  · intro hsome
    rcases hcb : s.clipboard with _ | u
    · rcases hnew : env.clipboardNew with _ | v
      · rw [hcb, hnew] at hsome
        simp at hsome
      · cases v
        refine ⟨?_, fun hok => ?_, fun e2 he2 => ?_⟩
        · rcases hset : env.clipSetText s.original_text with e | u2 <;>
            simp [PreviewState.copy_to_clipboard, hcb, hnew, hset]
        · simp [PreviewState.copy_to_clipboard, hcb, hnew, hok]
        · simp [PreviewState.copy_to_clipboard, hcb, hnew, he2]
    · cases u
      refine ⟨?_, fun hok => ?_, fun e2 he2 => ?_⟩
      · rcases hset : env.clipSetText s.original_text with e | u2 <;>
          simp [PreviewState.copy_to_clipboard, hcb, hset]
      · simp [PreviewState.copy_to_clipboard, hcb, hok]
      · simp [PreviewState.copy_to_clipboard, hcb, he2]

/-- Witness for C4: a held handle with successful copy, and a missing
handle. -/
theorem C4_clipboard_raw_source_witness :
    ((pvA.copy_to_clipboard envA).2 = some pvA.original_text ∧
      (pvA.copy_to_clipboard envA).1.status_message = none) ∧
    ((pvNoClip.copy_to_clipboard envNoClip).2 = none ∧
      (pvNoClip.copy_to_clipboard envNoClip).1.status_message
        = some (str "Clipboard not available")) := by
  have h1 := (C4_clipboard_raw_source pvA envA).2.2 (Or.inl rfl)
  have h2 := (C4_clipboard_raw_source pvNoClip envNoClip).2.1 rfl rfl
  exact ⟨⟨h1.1, h1.2.1 rfl⟩, h2⟩

/-- Claim C5: executing `cat <filename>` on a readable regular file always
builds a plain-text preview document via `new_text` — no markdown or
extension branching occurs on this path, for `.md` files included — whose
raw source is exactly the file content, whose character count is the
number of Unicode scalar values of that content (`List.length` over
`Str`), and the mode transitions to Preview. -/
theorem C5_cat_plaintext (env : Env) (st : AppState) (fn content : Str)
    (hm : st.mode = .explorer) (hc : st.explorer.in_command_mode = true)
    (hp : splitWs (trim st.explorer.command_input) = [str "cat", fn])
    (hf : env.isFile (env.pathJoin st.explorer.current_path fn) = true)
    (hr : env.readToString (env.pathJoin st.explorer.current_path fn)
      = .ok content) :
    step env st .enter
      = .ok ({ st with
          explorer := { st.explorer with
            command_input := [], in_command_mode := false,
            status_message := none, is_error := false }
          preview := some (PreviewState.new_text env
            (env.pathJoin st.explorer.current_path fn) content
            GITHUB_DARK_THEME)
          mode := .preview }, Effects.nil) ∧
    (PreviewState.new_text env (env.pathJoin st.explorer.current_path fn)
        content GITHUB_DARK_THEME).original_text = content ∧
    (PreviewState.new_text env (env.pathJoin st.explorer.current_path fn)
        content GITHUB_DARK_THEME).char_count = content.length ∧
    (PreviewState.new_text env (env.pathJoin st.explorer.current_path fn)
        content GITHUB_DARK_THEME).content
      = Text.styled content GITHUB_DARK_THEME.fg := by
  refine ⟨?_, rfl, rfl, rfl⟩
  rw [step_cmd_enter env st hm hc]
  simp [executeCommand, hp, hf, hr, str]

/-- Witness for C5: `:cat b.txt` on a file containing `héllo`, whose
scalar count differs from its UTF-8 byte length. -/
theorem C5_cat_plaintext_witness :
    step envB stCat .enter
      = .ok ({ stCat with
          explorer := { stCat.explorer with
            command_input := [], in_command_mode := false,
            status_message := none, is_error := false }
          preview := some (PreviewState.new_text envB
            (envB.pathJoin stCat.explorer.current_path (str "b.txt"))
            (str "héllo") GITHUB_DARK_THEME)
          mode := .preview }, Effects.nil) ∧
    (PreviewState.new_text envB
        (envB.pathJoin stCat.explorer.current_path (str "b.txt"))
        (str "héllo") GITHUB_DARK_THEME).char_count = (str "héllo").length ∧
    (str "héllo").length = 5 ∧
    ((str "héllo").map Char.utf8Size).sum = 6 := by
  have h := C5_cat_plaintext envB stCat (str "b.txt") (str "héllo")
    rfl rfl (by decide) rfl rfl
  exact ⟨h.1, h.2.2.1, by decide, by decide⟩

/-- Claim C6: `ob <filename>` on a regular file refuses every extension
other than `html` with the error status the spec renders as "only HTML
files can be opened" (the source string is Japanese) and without invoking
the opener; on an `html` file it invokes the opener, reporting failure as
an error status and success as the info status rendered as "opened in
browser: …"; the mode stays Explorer in every case. -/
theorem C6_ob_html_only (env : Env) (st : AppState) (fn : Str)
    (hm : st.mode = .explorer) (hc : st.explorer.in_command_mode = true)
    (hp : splitWs (trim st.explorer.command_input) = [str "ob", fn])
    (hf : env.isFile (env.pathJoin st.explorer.current_path fn) = true) :
    (env.extension (env.pathJoin st.explorer.current_path fn)
        ≠ some (str "html") →
      step env st .enter
        = .ok ({ st with explorer := { st.explorer with
            command_input := [], in_command_mode := false,
            status_message := some (str "HTMLファイルのみ開けます。"),
            is_error := true } }, Effects.nil)) ∧
    (env.extension (env.pathJoin st.explorer.current_path fn)
        = some (str "html") →
      (env.openerOpen (env.pathJoin st.explorer.current_path fn) = .ok () →
        step env st .enter
          = .ok ({ st with explorer := { st.explorer with
              command_input := [], in_command_mode := false,
              status_message := some
                (str "ブラウザで開きました: " ++ fn),
              is_error := false } },
            ⟨[env.pathJoin st.explorer.current_path fn], []⟩)) ∧
      (∀ e, env.openerOpen (env.pathJoin st.explorer.current_path fn)
          = .error e →
        step env st .enter
          = .ok ({ st with explorer := { st.explorer with
              command_input := [], in_command_mode := false,
              status_message := some
                (str "ブラウザで開けませんでした: " ++ e),
              is_error := true } },
            ⟨[env.pathJoin st.explorer.current_path fn], []⟩))) := by
  have hobcat : str "ob" ≠ str "cat" := by decide
  refine ⟨fun hext => ?_, fun hext => ⟨fun hop => ?_, fun e hop => ?_⟩⟩
  · rw [step_cmd_enter env st hm hc]
    simp [executeCommand, hp, hf, hobcat, hext, ExplorerState.set_message]
  · rw [step_cmd_enter env st hm hc]
    simp [executeCommand, hp, hf, hobcat, hext, hop,
      ExplorerState.set_message]
  · rw [step_cmd_enter env st hm hc]
    simp [executeCommand, hp, hf, hobcat, hext, hop,
      ExplorerState.set_message]

/-- Witness for C6: `:ob readme.md` is refused, `:ob index.html` opens. -/
theorem C6_ob_html_only_witness :
    step envA stObMd .enter
      = .ok ({ stObMd with explorer := { stObMd.explorer with
          command_input := [], in_command_mode := false,
          status_message := some (str "HTMLファイルのみ開けます。"),
          is_error := true } }, Effects.nil) ∧
    step envOb stOb .enter
      = .ok ({ stOb with explorer := { stOb.explorer with
          command_input := [], in_command_mode := false,
          status_message := some
            (str "ブラウザで開きました: " ++ str "index.html"),
          is_error := false } },
        ⟨[envOb.pathJoin stOb.explorer.current_path (str "index.html")],
          []⟩) := by
  have h1 := (C6_ob_html_only envA stObMd (str "readme.md")
    rfl rfl (by decide) (by decide)).1 (by decide)
  have h2 := ((C6_ob_html_only envOb stOb (str "index.html")
    rfl rfl (by decide) (by decide)).2 (by decide)).1 rfl
  exact ⟨h1, h2⟩

/-- Claim C1: error propagation is asymmetric. Every failure while
reloading a directory — the initial listing at startup, parent navigation,
or entering a selected directory (canonicalization included) — propagates
out of the loop step as `.error`, terminating the application; every
failure while reading a selected or `:cat`-named file, while
validating/opening via `:ob`, or while using the clipboard is caught,
returned as `.ok` with only a status message set, leaving the mode and the
Explorer working directory, entries and selection unchanged. -/
theorem C1_error_asymmetry (env : Env) (st : AppState) :
    (∀ cwd e, env.readDir cwd = .error e → initApp env cwd = .error e) ∧
    (∀ p e, st.mode = .explorer → st.explorer.in_command_mode = false →
      env.parent st.explorer.current_path = some p →
      env.readDir p = .error e →
      step env st .left = .error e) ∧
    (∀ i sel e, st.mode = .explorer → st.explorer.in_command_mode = false →
      st.explorer.selected = some i →
      st.explorer.entries[i]? = some sel →
      env.isDir sel = true →
      env.canonicalize sel = .error e →
      step env st .enter = .error e) ∧
    (∀ i sel c e, st.mode = .explorer →
      st.explorer.in_command_mode = false →
      st.explorer.selected = some i →
      st.explorer.entries[i]? = some sel →
      env.isDir sel = true →
      env.canonicalize sel = .ok c →
      env.readDir c = .error e →
      step env st .enter = .error e) ∧
    (∀ i sel e, st.mode = .explorer → st.explorer.in_command_mode = false →
      st.explorer.selected = some i →
      st.explorer.entries[i]? = some sel →
      env.isDir sel = false →
      env.readToString sel = .error e →
      step env st .enter
        = .ok ({ st with explorer := { st.explorer with
            status_message := some (str "ファイル読み込みエラー: " ++ e),
            is_error := true } }, Effects.nil)) ∧
    (∀ fn e, st.mode = .explorer → st.explorer.in_command_mode = true →
      splitWs (trim st.explorer.command_input) = [str "cat", fn] →
      env.isFile (env.pathJoin st.explorer.current_path fn) = true →
      env.readToString (env.pathJoin st.explorer.current_path fn)
        = .error e →
      step env st .enter
        = .ok ({ st with explorer := { st.explorer with
            command_input := [], in_command_mode := false,
            status_message := some (str "ファイル読み込みエラー: " ++ e),
            is_error := true } }, Effects.nil)) ∧
    (∀ fn, st.mode = .explorer → st.explorer.in_command_mode = true →
      splitWs (trim st.explorer.command_input) = [str "ob", fn] →
      env.isFile (env.pathJoin st.explorer.current_path fn) = false →
      step env st .enter
        = .ok ({ st with explorer := { st.explorer with
            command_input := [], in_command_mode := false,
            status_message := some (str "ファイルが見つかりません: " ++ fn),
            is_error := true } }, Effects.nil)) ∧
    (∀ pv, st.mode = .preview → st.preview = some pv →
      pv.clipboard = none → env.clipboardNew = none →
      step env st (.char 'y')
        = .ok ({ st with preview := some { pv with
            status_message := some (str "Clipboard not available") } },
          ⟨[], []⟩)) ∧
    (∀ pv e, st.mode = .preview → st.preview = some pv →
      pv.clipboard = some () →
      env.clipSetText pv.original_text = .error e →
      step env st (.char 'y')
        = .ok ({ st with preview := some { pv with
            status_message := some (str "Copy failed: " ++ e) } },
          ⟨[], [pv.original_text]⟩)) := by
  refine ⟨?_, ?_, ?_, ?_, ?_, ?_, ?_, ?_, ?_⟩
  · intro cwd e h
    simp [initApp, ExplorerState.new, ExplorerState.load_entries, h]
  · intro p e hm hc hpar hrd
    rw [step_normal_left env st hm hc]
    simp [navigateParent, ExplorerState.clear_message, hpar,
      ExplorerState.load_entries, hrd]
  · intro i sel e hm hc hsel hget hdir hcanon
    rw [step_normal_enter env st hm hc]
    simp [enterSelected, ExplorerState.clear_message, hsel, hget, hdir,
      hcanon]
  · intro i sel c e hm hc hsel hget hdir hcanon hrd
    rw [step_normal_enter env st hm hc]
    simp [enterSelected, ExplorerState.clear_message, hsel, hget, hdir,
      hcanon, ExplorerState.load_entries, hrd]
  · intro i sel e hm hc hsel hget hdir hread
    rw [step_normal_enter env st hm hc]
    by_cases hmd : env.extension sel = some (str "md") <;>
      simp [enterSelected, ExplorerState.clear_message,
        ExplorerState.set_message, hsel, hget, hdir, hmd, hread]
  · intro fn e hm hc hp hf hread
    rw [step_cmd_enter env st hm hc]
    simp [executeCommand, hp, hf, hread, str, ExplorerState.set_message]
  · intro fn hm hc hp hf
    have hobcat : str "ob" ≠ str "cat" := by decide
    rw [step_cmd_enter env st hm hc]
    simp [executeCommand, hp, hf, hobcat, ExplorerState.set_message]
  · intro pv hm hpv hcb hnew
    rw [step_preview_y env st pv hm hpv]
    simp [PreviewState.copy_to_clipboard, hcb, hnew]
  · intro pv e hm hpv hcb hset
    rw [step_preview_y env st pv hm hpv]
    simp [PreviewState.copy_to_clipboard, hcb, hset]

/-- Witness for C1: a denied parent reload is fatal, a failed `:cat` read
is a recoverable status message. -/
theorem C1_error_asymmetry_witness :
    step envDeny stNorm .left = .error (str "denied") ∧
    step envA stCat .enter
      = .ok ({ stCat with explorer := { stCat.explorer with
          command_input := [], in_command_mode := false,
          status_message := some (str "ファイル読み込みエラー: " ++ str "io"),
          is_error := true } }, Effects.nil) := by
  have h1 := (C1_error_asymmetry envDeny stNorm).2.1
    (str "/locked") (str "denied") rfl rfl rfl rfl
  have h2 := (C1_error_asymmetry envA stCat).2.2.2.2.2.1
    (str "b.txt") (str "io") rfl rfl (by decide) (by decide) rfl
  exact ⟨h1, h2⟩

end Peek
